import Mathlib

/-!
# Authenticated Ping service: interceptor, authenticator, header matcher, handler

A shallow embedding of the request path of the Ping server
(`server/main.go`, `api/handler.go`, `client/main.go`):

* `credMatcher`          the gateway's incoming-header matcher,
* `authenticateClient`   the login/password check on the call's metadata,
* `unaryInterceptor`     the gate in front of every unary handler,
* `Server.SayHello`      the one RPC method,
* `Authentication.GetRequestMetadata` the client's per-call credentials.

Go values that the code manipulates are embedded as follows.  A `context.Context`
is the chain of `WithValue` nodes it is built from; `interface{}` values are the
sum type `Any`; an `error` is its message; the effects of `log.Printf` and of the
wrapped handler are made explicit by passing a `World` through every function
that has effects.  A nil-pointer dereference is the `Panic` outcome.
-/

set_option autoImplicit false

namespace GrpcAuth

/-! ## Go runtime values -/

/-- Go `error` values built by `fmt.Errorf`: the message is all the code observes. -/
structure Error where
  msg : String
  deriving DecidableEq, Repr

/-- Run-time panics of the embedded code. -/
inductive Panic where
  | nilPointerDereference
  deriving DecidableEq, Repr

/-- The struct `api.Server` (`type Server struct{}`): it has no fields. -/
structure Server where
  deriving DecidableEq, Repr

/-- Modelled from the spec: the message type `PingMessage` of the generated file
`api.pb.go`, which the spec gives as the record `{greeting: string}`. -/
structure PingMessage where
  Greeting : String
  deriving DecidableEq, Repr

/-- The gRPC metadata type `MD`, a `map[string][]string`, as an association list;
the first entry for a key is the map's entry. -/
structure MD where
  entries : List (String × List String)
  deriving DecidableEq, Repr

/-- Map indexing `md[k]`: the stored slice, or the nil (empty) slice when the key is absent. -/
def MD.index (md : MD) (k : String) : List String :=
  match md.entries.lookup k with
  | some vs => vs
  | none => []

/-- Keys of context values.  Go compares keys as interface values, so keys of
different types never collide. -/
inductive Key where
  /-- a value of the server package's private `type contextKey int` -/
  | contextKey (n : Int)
  /-- the metadata package's private key `mdIncomingKey{}` -/
  | mdIncomingKey
  /-- a key of any other type -/
  | other (typeName : String) (repr : String)
  deriving DecidableEq, Repr

/-- The constant `clientIDKey contextKey = iota`. -/
def clientIDKey : Key := Key.contextKey 0

/-- Go `interface{}` values that occur on the request path. -/
inductive Any where
  | nil
  | str (s : String)
  | md (m : MD)
  /-- a `*api.PingMessage` -/
  | pingMessage (p : Option PingMessage)
  /-- a `*api.Server` -/
  | serverPtr (p : Option Server)
  /-- a value of any other dynamic type -/
  | other (typeName : String) (repr : String)
  deriving DecidableEq, Repr

/-- A `context.Context`, as the chain of value bindings it was derived through. -/
inductive Context where
  | background
  | withValue (parent : Context) (key : Key) (val : Any)
  deriving DecidableEq, Repr

/-- The method `ctx.Value(key)`: the innermost binding of the key, or nil. -/
def Context.Value : Context → Key → Any
  | Context.background, _ => Any.nil
  | Context.withValue parent key val, k => if k = key then val else parent.Value k

namespace context

/-- The function `context.WithValue(parent, key, val)`. -/
def WithValue (parent : Context) (key : Key) (val : Any) : Context :=
  Context.withValue parent key val

end context

namespace metadata

/-- The function `metadata.NewIncomingContext(ctx, md)`. -/
def NewIncomingContext (ctx : Context) (md : MD) : Context :=
  context.WithValue ctx Key.mdIncomingKey (Any.md md)

/-- The function `metadata.FromIncomingContext(ctx)`:
`md, ok = ctx.Value(mdIncomingKey{}).(MD)`. -/
def FromIncomingContext (ctx : Context) : MD × Bool :=
  match ctx.Value Key.mdIncomingKey with
  | Any.md m => (m, true)
  | _ => (⟨[]⟩, false)

end metadata

namespace strings

/-- The function `strings.Join(elems, sep)`. -/
def Join : List String → String → String
  | [], _ => ""
  | [a], _ => a
  | a :: rest, sep => rest.foldl (fun acc s => acc ++ sep ++ s) a

end strings

namespace fmt

/-- Expansion of a format string whose only verbs are `%s` with string operands. -/
def formatVerbs : List Char → List String → List Char
  | [], _ => []
  | '%' :: 's' :: rest, a :: args => a.data ++ formatVerbs rest args
  | '%' :: 's' :: rest, [] => "%!s(MISSING)".data ++ formatVerbs rest []
  | c :: rest, args => c :: formatVerbs rest args

/-- The function `fmt.Sprintf(format, args...)` on string operands. -/
def Sprintf (format : String) (args : List String) : String :=
  ⟨formatVerbs format.data args⟩

/-- The function `fmt.Errorf(format, args...)` on string operands. -/
def Errorf (format : String) (args : List String) : Error :=
  ⟨Sprintf format args⟩

end fmt

/-! ## Effects -/

/-- What the code can change: the lines written with `log.Printf`, and a state
`ext` that only the wrapped handler reads and writes. -/
structure World (σ : Type) where
  logged : List String
  ext : σ
  deriving DecidableEq

namespace log

/-- The function `log.Printf(format, args...)`: one more line of log output. -/
def Printf {σ : Type} (format : String) (args : List String) (w : World σ) : World σ :=
  { w with logged := w.logged ++ [fmt.Sprintf format args] }

end log

/-! ## server/main.go -/

/-- The function `credMatcher` of `server/main.go`. -/
def credMatcher (headerName : String) : String × Bool :=
  if headerName = "Login" ∨ headerName = "Password" then
    (headerName, true)
  else
    ("", false)

/-- The function `authenticateClient` of `server/main.go`; the result is the
returned `(string, error)` pair and the world after the call. -/
def authenticateClient {σ : Type} (ctx : Context) (_s : Option Server) (w : World σ) :
    (String × Option Error) × World σ :=
  match metadata.FromIncomingContext ctx with
  | (md, true) =>
    let clientLogin := strings.Join (md.index "login") ""
    let clientPassword := strings.Join (md.index "password") ""
    if clientLogin ≠ "john" then
      (("", some (fmt.Errorf "uknown user %s" [clientLogin])), w)
    else if clientPassword ≠ "doe" then
      (("", some (fmt.Errorf "bad password %s" [clientPassword])), w)
    else
      (("42", none), log.Printf "authenticated client: %s" [clientLogin] w)
  | (_, false) => (("", some (fmt.Errorf "missing credentials" [])), w)

/-- The struct `grpc.UnaryServerInfo`. -/
structure UnaryServerInfo where
  Server : Any
  FullMethod : String

/-- The type `grpc.UnaryHandler`: a function of the context and the request that
returns an `(interface{}, error)` pair, with whatever effects it has. -/
abbrev UnaryHandler (σ : Type) : Type :=
  Context → Any → World σ → Except Panic ((Any × Option Error) × World σ)

/-- The function `unaryInterceptor` of `server/main.go`; `info` is a pointer. -/
def unaryInterceptor {σ : Type} (ctx : Context) (req : Any) (info : Option UnaryServerInfo)
    (handler : UnaryHandler σ) (w : World σ) :
    Except Panic ((Any × Option Error) × World σ) :=
  match info with
  | none => Except.error Panic.nilPointerDereference
  | some i =>
    match i.Server with
    | Any.serverPtr s =>
      match authenticateClient ctx s w with
      | ((_, some err), w1) => Except.ok ((Any.nil, some err), w1)
      | ((clientID, none), w1) =>
        handler (context.WithValue ctx clientIDKey (Any.str clientID)) req w1
    | _ => Except.ok ((Any.nil, some (fmt.Errorf "unable to cast server" [])), w)

/-! ## api/handler.go -/

/-- The method `(s *Server) SayHello(ctx, in)` of `api/handler.go`; `inp` is the
pointer `in`, whose field is read before the reply is built. -/
def Server.SayHello {σ : Type} (_s : Option Server) (_ctx : Context) (inp : Option PingMessage)
    (w : World σ) : Except Panic ((Option PingMessage × Option Error) × World σ) :=
  match inp with
  | none => Except.error Panic.nilPointerDereference
  | some m =>
    Except.ok ((some { Greeting := "bar" }, none), log.Printf "Receive message %s" [m.Greeting] w)

/-! ## client/main.go -/

/-- The struct `Authentication` of `client/main.go`. -/
structure Authentication where
  Login : String
  Password : String
  deriving DecidableEq, Repr

/-- The method `GetRequestMetadata` of `client/main.go`: the returned
`map[string]string` (as an association list) and the nil error. -/
def Authentication.GetRequestMetadata (a : Authentication) (_ctx : Context) (_uri : List String) :
    List (String × String) × Option Error :=
  ([("login", a.Login), ("password", a.Password)], none)

/-- The method `RequireTransportSecurity` of `client/main.go`. -/
def Authentication.RequireTransportSecurity (_a : Authentication) : Bool := true

/-! ## Reference notions used in the statements -/

/-- Follows the words of the claim on multi-valued metadata: the concatenation,
with no separator, of all the values stored under a key. -/
def concatAll (vs : List String) : String :=
  vs.foldr (fun v acc => v ++ acc) ""

/-- A handler that counts its invocations in its state and replies nil. -/
def countingHandler : UnaryHandler Nat :=
  fun _ _ w => Except.ok ((Any.nil, none), { w with ext := w.ext + 1 })

/-- A handler that always panics. -/
def panickingHandler {σ : Type} : UnaryHandler σ :=
  fun _ _ _ => Except.error Panic.nilPointerDereference

/-- A context as the server receives it: the background context with the given
incoming metadata attached. -/
def incomingCall (entries : List (String × List String)) : Context :=
  metadata.NewIncomingContext Context.background ⟨entries⟩

/-- The metadata a server receives for the per-call credentials of a client: one
value per key of the map returned by `GetRequestMetadata`. -/
def clientCall (a : Authentication) : Context :=
  incomingCall ((a.GetRequestMetadata Context.background []).1.map (fun kv => (kv.1, [kv.2])))

/-! ## Formatting lemmas -/

theorem Sprintf_unknown_user (l : String) :
    fmt.Sprintf "uknown user %s" [l] = "uknown user " ++ l := by
  apply String.ext
  simp [fmt.Sprintf, fmt.formatVerbs]

theorem Sprintf_bad_password (p : String) :
    fmt.Sprintf "bad password %s" [p] = "bad password " ++ p := by
  apply String.ext
  simp [fmt.Sprintf, fmt.formatVerbs]

theorem Sprintf_authenticated (l : String) :
    fmt.Sprintf "authenticated client: %s" [l] = "authenticated client: " ++ l := by
  apply String.ext
  simp [fmt.Sprintf, fmt.formatVerbs]

theorem Sprintf_receive (g : String) :
    fmt.Sprintf "Receive message %s" [g] = "Receive message " ++ g := by
  apply String.ext
  simp [fmt.Sprintf, fmt.formatVerbs]

theorem Sprintf_missing : fmt.Sprintf "missing credentials" [] = "missing credentials" := by
  decide

theorem unknown_ne_bad (l p : String) : "uknown user " ++ l ≠ "bad password " ++ p := by
  intro h
  have hd := congrArg String.data h
  simp at hd

theorem unknown_ne_missing (l : String) : "uknown user " ++ l ≠ "missing credentials" := by
  intro h
  have hd := congrArg String.data h
  simp at hd

theorem bad_ne_missing (p : String) : "bad password " ++ p ≠ "missing credentials" := by
  intro h
  have hd := congrArg String.data h
  simp at hd

/-! ## Joining with the empty separator is concatenation -/

theorem foldl_append_empty_sep (rest : List String) (a : String) :
    rest.foldl (fun acc s => acc ++ "" ++ s) a = a ++ concatAll rest := by
  induction rest generalizing a with
  | nil => simp [concatAll]
  | cons b tl ih =>
    simp only [List.foldl_cons, ih]
    simp [concatAll, String.append_assoc]

theorem Join_empty_sep (vs : List String) : strings.Join vs "" = concatAll vs := by
  match vs with
  | [] => rfl
  | [a] => simp [strings.Join, concatAll]
  | a :: b :: tl =>
    simp only [strings.Join]
    rw [foldl_append_empty_sep]
    simp [concatAll]

/-! ## The branches of `authenticateClient` -/

section Branches

variable {σ : Type}

theorem authenticateClient_no_md (ctx : Context) (s : Option Server) (w : World σ)
    (h : (metadata.FromIncomingContext ctx).2 = false) :
    authenticateClient ctx s w = (("", some (fmt.Errorf "missing credentials" [])), w) := by
  unfold authenticateClient
  rcases hm : metadata.FromIncomingContext ctx with ⟨md, ok⟩
  rw [hm] at h
  simp only at h
  subst h
  rfl

theorem authenticateClient_md (ctx : Context) (s : Option Server) (w : World σ) (md : MD)
    (h : metadata.FromIncomingContext ctx = (md, true)) :
    authenticateClient ctx s w =
      if strings.Join (md.index "login") "" ≠ "john" then
        (("", some (fmt.Errorf "uknown user %s" [strings.Join (md.index "login") ""])), w)
      else if strings.Join (md.index "password") "" ≠ "doe" then
        (("", some (fmt.Errorf "bad password %s" [strings.Join (md.index "password") ""])), w)
      else
        (("42", none),
          log.Printf "authenticated client: %s" [strings.Join (md.index "login") ""] w) := by
  unfold authenticateClient
  rw [h]

theorem authenticateClient_server_irrelevant (ctx : Context) (s t : Option Server) (w : World σ) :
    authenticateClient ctx s w = authenticateClient ctx t w := rfl

theorem authenticateClient_failure_world (ctx : Context) (s : Option Server) (w w1 : World σ)
    (clientID : String) (e : Error)
    (h : authenticateClient ctx s w = ((clientID, some e), w1)) : clientID = "" ∧ w1 = w := by
  rcases hm : metadata.FromIncomingContext ctx with ⟨md, ok⟩
  cases ok with
  | false =>
    rw [authenticateClient_no_md ctx s w (by rw [hm])] at h
    simp only [Prod.mk.injEq] at h
    exact ⟨h.1.1.symm, h.2.symm⟩
  | true =>
    rw [authenticateClient_md ctx s w md hm] at h
    split_ifs at h <;> simp only [Prod.mk.injEq] at h
    · exact ⟨h.1.1.symm, h.2.symm⟩
    · exact ⟨h.1.1.symm, h.2.symm⟩
    · exact absurd h.1.2 (by simp)

end Branches

/-! ## The header matcher -/

/-- C8: for every header name, `credMatcher` accepts it if and only if it is
exactly "Login" or exactly "Password" (case-sensitive); whenever a name is
accepted the returned name is that name unchanged; and the names "X-Trace-Id",
"login" and "" are not accepted. -/
theorem credMatcher_accepts_iff (name : String) :
    ((credMatcher name).2 = true ↔ (name = "Login" ∨ name = "Password")) ∧
    ((credMatcher name).2 = false ∨ (credMatcher name).1 = name) ∧
    (credMatcher "X-Trace-Id").2 = false ∧
    (credMatcher "login").2 = false ∧
    (credMatcher "").2 = false := by
  refine ⟨?_, ?_, by decide, by decide, by decide⟩
  · unfold credMatcher
    split_ifs with h
    · simp [h]
    · simp [h]
  · unfold credMatcher
    split_ifs with h
    · right; rfl
    · left; rfl

/-! ## The service handler -/

/-- C9: for every receiver, context, input message (any greeting, the empty one
included) and world, `SayHello` returns without panicking a message whose
greeting is exactly "bar" together with a nil error, after logging the received
greeting; the returned pair is the same for every other context and input. -/
theorem SayHello_replies_bar {σ : Type} (s : Option Server) (ctx : Context) (m : PingMessage)
    (w : World σ) :
    Server.SayHello s ctx (some m) w =
      Except.ok ((some { Greeting := "bar" }, none),
        { w with logged := w.logged ++ ["Receive message " ++ m.Greeting] }) ∧
    (∀ (s2 : Option Server) (ctx2 : Context) (m2 : PingMessage) (w2 : World σ),
      (Server.SayHello s2 ctx2 (some m2) w2).map Prod.fst =
        (Server.SayHello s ctx (some m) w).map Prod.fst) ∧
    (Server.SayHello s ctx (some { Greeting := "" }) w).map Prod.fst =
      Except.ok (some { Greeting := "bar" }, none) := by
  refine ⟨?_, ?_, rfl⟩
  · simp only [Server.SayHello, log.Printf, Sprintf_receive]
  · intro s2 ctx2 m2 w2
    rfl

/-! ## The authenticator -/

/-- C3: for every context that carries incoming metadata and presents the login
`login` (the joined values under "login") with `login` different from "john",
`authenticateClient` returns the empty identity and the unknown-user error whose
message is "uknown user " followed by that login, and leaves the world unchanged,
whatever is stored under "password"; the error is never a bad-password error. -/
theorem authenticateClient_unknown_user {σ : Type} (ctx : Context) (s : Option Server)
    (w : World σ) (md : MD) (login : String)
    (hmd : metadata.FromIncomingContext ctx = (md, true))
    (hlogin : strings.Join (md.index "login") "" = login)
    (hne : login ≠ "john") :
    authenticateClient ctx s w = (("", some (fmt.Errorf "uknown user %s" [login])), w) ∧
    (fmt.Errorf "uknown user %s" [login]).msg = "uknown user " ++ login ∧
    ∀ p : String, (authenticateClient ctx s w).1.2 ≠ some (fmt.Errorf "bad password %s" [p]) := by
  have hres : authenticateClient ctx s w =
      (("", some (fmt.Errorf "uknown user %s" [login])), w) := by
    rw [authenticateClient_md ctx s w md hmd, hlogin, if_pos hne]
  refine ⟨hres, Sprintf_unknown_user login, ?_⟩
  intro p hbad
  rw [hres] at hbad
  simp only [Option.some.injEq, fmt.Errorf, Error.mk.injEq, Sprintf_unknown_user,
    Sprintf_bad_password] at hbad
  exact unknown_ne_bad login p hbad

/-- Witness of C3: login "jane" with the correct password "doe". -/
theorem authenticateClient_unknown_user_witness :
    metadata.FromIncomingContext (incomingCall [("login", ["jane"]), ("password", ["doe"])]) =
        (⟨[("login", ["jane"]), ("password", ["doe"])]⟩, true) ∧
    strings.Join (MD.index ⟨[("login", ["jane"]), ("password", ["doe"])]⟩ "login") "" = "jane" ∧
    "jane" ≠ "john" ∧
    authenticateClient (incomingCall [("login", ["jane"]), ("password", ["doe"])]) none
        (⟨[], ()⟩ : World Unit) = (("", some ⟨"uknown user jane"⟩), ⟨[], ()⟩) :=
  ⟨rfl, by decide, by decide,
    (authenticateClient_unknown_user (incomingCall [("login", ["jane"]), ("password", ["doe"])])
      none ⟨[], ()⟩ ⟨[("login", ["jane"]), ("password", ["doe"])]⟩ "jane" rfl (by decide)
      (by decide)).1.trans (by decide)⟩

/-- C4: for every context whose metadata presents the login "john" and a password
(the joined values under "password") different from "doe", `authenticateClient`
returns the empty identity and the bad-password error, and leaves the world
unchanged. -/
theorem authenticateClient_bad_password {σ : Type} (ctx : Context) (s : Option Server)
    (w : World σ) (md : MD) (password : String)
    (hmd : metadata.FromIncomingContext ctx = (md, true))
    (hlogin : strings.Join (md.index "login") "" = "john")
    (hpassword : strings.Join (md.index "password") "" = password)
    (hne : password ≠ "doe") :
    authenticateClient ctx s w = (("", some (fmt.Errorf "bad password %s" [password])), w) ∧
    (fmt.Errorf "bad password %s" [password]).msg = "bad password " ++ password := by
  refine ⟨?_, Sprintf_bad_password password⟩
  rw [authenticateClient_md ctx s w md hmd, hlogin, hpassword, if_neg (by simp), if_pos hne]

/-- Witness of C4: login "john" with the password "wrong". -/
theorem authenticateClient_bad_password_witness :
    metadata.FromIncomingContext (incomingCall [("login", ["john"]), ("password", ["wrong"])]) =
        (⟨[("login", ["john"]), ("password", ["wrong"])]⟩, true) ∧
    strings.Join (MD.index ⟨[("login", ["john"]), ("password", ["wrong"])]⟩ "login") "" = "john" ∧
    strings.Join (MD.index ⟨[("login", ["john"]), ("password", ["wrong"])]⟩ "password") "" =
        "wrong" ∧
    "wrong" ≠ "doe" ∧
    authenticateClient (incomingCall [("login", ["john"]), ("password", ["wrong"])]) none
        (⟨[], ()⟩ : World Unit) = (("", some ⟨"bad password wrong"⟩), ⟨[], ()⟩) :=
  ⟨rfl, by decide, by decide, by decide,
    (authenticateClient_bad_password (incomingCall [("login", ["john"]), ("password", ["wrong"])])
      none ⟨[], ()⟩ ⟨[("login", ["john"]), ("password", ["wrong"])]⟩ "wrong" rfl (by decide)
      (by decide) (by decide)).1.trans (by decide)⟩

/-- C5: for every context whose metadata presents the login "john" and the
password "doe", `authenticateClient` returns the identity "42" with a nil error,
having written exactly one log line, "authenticated client: john". -/
theorem authenticateClient_success {σ : Type} (ctx : Context) (s : Option Server)
    (w : World σ) (md : MD)
    (hmd : metadata.FromIncomingContext ctx = (md, true))
    (hlogin : strings.Join (md.index "login") "" = "john")
    (hpassword : strings.Join (md.index "password") "" = "doe") :
    authenticateClient ctx s w =
      (("42", none), { w with logged := w.logged ++ ["authenticated client: john"] }) := by
  rw [authenticateClient_md ctx s w md hmd, hlogin, hpassword, if_neg (by simp), if_neg (by simp)]
  simp only [log.Printf, Sprintf_authenticated]
  rfl

/-- Witness of C5: the call of the client of `client/main.go`, which presents
`Authentication{Login: "john", Password: "doe"}`. -/
theorem authenticateClient_success_witness :
    metadata.FromIncomingContext (clientCall ⟨"john", "doe"⟩) =
        (⟨[("login", ["john"]), ("password", ["doe"])]⟩, true) ∧
    strings.Join (MD.index ⟨[("login", ["john"]), ("password", ["doe"])]⟩ "login") "" = "john" ∧
    strings.Join (MD.index ⟨[("login", ["john"]), ("password", ["doe"])]⟩ "password") "" = "doe" ∧
    authenticateClient (clientCall ⟨"john", "doe"⟩) none (⟨[], ()⟩ : World Unit) =
      (("42", none), ⟨["authenticated client: john"], ()⟩) :=
  ⟨rfl, by decide, by decide,
    authenticateClient_success (clientCall ⟨"john", "doe"⟩) none ⟨[], ()⟩
      ⟨[("login", ["john"]), ("password", ["doe"])]⟩ rfl (by decide) (by decide)⟩

/-- C6: for every context that carries no incoming metadata at all
(`metadata.FromIncomingContext` reports not-ok), `authenticateClient` returns the
empty identity and the error "missing credentials", and leaves the world
unchanged. -/
theorem authenticateClient_missing_credentials {σ : Type} (ctx : Context) (s : Option Server)
    (w : World σ) (hmd : (metadata.FromIncomingContext ctx).2 = false) :
    authenticateClient ctx s w = (("", some (fmt.Errorf "missing credentials" [])), w) ∧
    (fmt.Errorf "missing credentials" []).msg = "missing credentials" :=
  ⟨authenticateClient_no_md ctx s w hmd, Sprintf_missing⟩

/-- Witness of C6: the background context, which carries no metadata. -/
theorem authenticateClient_missing_credentials_witness :
    (metadata.FromIncomingContext Context.background).2 = false ∧
    authenticateClient Context.background none (⟨[], ()⟩ : World Unit) =
      (("", some ⟨"missing credentials"⟩), ⟨[], ()⟩) :=
  ⟨rfl, (authenticateClient_missing_credentials Context.background none ⟨[], ()⟩ rfl).1.trans
    (by decide)⟩

/-- C7, as stated, fails: a call whose metadata map is present but holds neither
a "login" nor a "password" key (only a "user-agent" entry) is not answered with
"missing credentials" but with the unknown-user error for the empty login. -/
theorem authenticateClient_no_keys_counterexample :
    metadata.FromIncomingContext (incomingCall [("user-agent", ["grpc-go/1.9.2"])]) =
        (⟨[("user-agent", ["grpc-go/1.9.2"])]⟩, true) ∧
    List.lookup "login" [("user-agent", ["grpc-go/1.9.2"])] = none ∧
    List.lookup "password" [("user-agent", ["grpc-go/1.9.2"])] = none ∧
    authenticateClient (incomingCall [("user-agent", ["grpc-go/1.9.2"])]) none
        (⟨[], ()⟩ : World Unit) = (("", some ⟨"uknown user "⟩), ⟨[], ()⟩) ∧
    (authenticateClient (incomingCall [("user-agent", ["grpc-go/1.9.2"])]) none
        (⟨[], ()⟩ : World Unit)).1.2 ≠ some (fmt.Errorf "missing credentials" []) := by
  refine ⟨rfl, by decide, by decide, by decide, by decide⟩

/-- C7, amended: `authenticateClient` returns the error "missing credentials"
exactly for the contexts that carry no incoming metadata at all; for a context
whose metadata map is present but has no "login" key it returns instead the
unknown-user error for the empty login, "uknown user ". -/
theorem authenticateClient_absent_login {σ : Type} (ctx : Context) (s : Option Server)
    (w : World σ) (md : MD)
    (hmd : metadata.FromIncomingContext ctx = (md, true))
    (hkey : md.entries.lookup "login" = none) :
    authenticateClient ctx s w = (("", some ⟨"uknown user "⟩), w) ∧
    ∀ (ctx2 : Context),
      ((authenticateClient ctx2 s w).1.2 = some (fmt.Errorf "missing credentials" []) ↔
        (metadata.FromIncomingContext ctx2).2 = false) := by
  constructor
  · have hidx : md.index "login" = [] := by simp [MD.index, hkey]
    have hjoin : strings.Join (md.index "login") "" = "" := by rw [hidx]; rfl
    rw [authenticateClient_md ctx s w md hmd, hjoin, if_pos (by decide)]
    rfl
  · intro ctx2
    constructor
    · intro herr
      rcases hm : metadata.FromIncomingContext ctx2 with ⟨md2, ok⟩
      cases ok with
      | false => rfl
      | true =>
        exfalso
        rw [authenticateClient_md ctx2 s w md2 hm] at herr
        split_ifs at herr
        · simp only [Option.some.injEq, fmt.Errorf, Error.mk.injEq, Sprintf_unknown_user,
            Sprintf_missing] at herr
          exact unknown_ne_missing _ herr
        · simp only [Option.some.injEq, fmt.Errorf, Error.mk.injEq, Sprintf_bad_password,
            Sprintf_missing] at herr
          exact bad_ne_missing _ herr
    · intro hno
      rw [authenticateClient_no_md ctx2 s w hno]

/-- Witness of the amended C7: a call that carries only a "user-agent" entry. -/
theorem authenticateClient_absent_login_witness :
    metadata.FromIncomingContext (incomingCall [("user-agent", ["grpc-go/1.9.2"])]) =
        (⟨[("user-agent", ["grpc-go/1.9.2"])]⟩, true) ∧
    (MD.mk [("user-agent", ["grpc-go/1.9.2"])]).entries.lookup "login" = none ∧
    authenticateClient (incomingCall [("user-agent", ["grpc-go/1.9.2"])]) (some ⟨⟩)
        (⟨["line"], ()⟩ : World Unit) = (("", some ⟨"uknown user "⟩), ⟨["line"], ()⟩) :=
  ⟨rfl, by decide,
    (authenticateClient_absent_login (incomingCall [("user-agent", ["grpc-go/1.9.2"])]) (some ⟨⟩)
      ⟨["line"], ()⟩ ⟨[("user-agent", ["grpc-go/1.9.2"])]⟩ rfl (by decide)).1⟩

/-- C10: for every context that carries incoming metadata, `authenticateClient`
decides on the concatenations, with no separator, of the values under "login"
and under "password": it succeeds (identity "42", nil error) if and only if the
first is "john" and the second is "doe", and otherwise fails with the unknown-user
error for the concatenated login or the bad-password error for the concatenated
password.  So login ["jo", "hn"] with password ["d", "oe"] is authenticated, and
login ["john", "john"] is rejected as unknown user "johnjohn". -/
theorem authenticateClient_concatenates {σ : Type} (ctx : Context) (s : Option Server)
    (w : World σ) (md : MD)
    (hmd : metadata.FromIncomingContext ctx = (md, true)) :
    ((authenticateClient ctx s w).1 = ("42", none) ↔
      (concatAll (md.index "login") = "john" ∧ concatAll (md.index "password") = "doe")) ∧
    (authenticateClient ctx s w).1 =
      (if concatAll (md.index "login") ≠ "john" then
        ("", some ⟨"uknown user " ++ concatAll (md.index "login")⟩)
      else if concatAll (md.index "password") ≠ "doe" then
        ("", some ⟨"bad password " ++ concatAll (md.index "password")⟩)
      else ("42", none)) ∧
    (authenticateClient (incomingCall [("login", ["jo", "hn"]), ("password", ["d", "oe"])]) s w).1 =
      ("42", none) ∧
    (authenticateClient (incomingCall [("login", ["john", "john"]), ("password", ["doe"])]) s w).1 =
      ("", some ⟨"uknown user johnjohn"⟩) := by
  have hform : (authenticateClient ctx s w).1 =
      (if concatAll (md.index "login") ≠ "john" then
        ("", some ⟨"uknown user " ++ concatAll (md.index "login")⟩)
      else if concatAll (md.index "password") ≠ "doe" then
        ("", some ⟨"bad password " ++ concatAll (md.index "password")⟩)
      else ("42", none)) := by
    rw [authenticateClient_md ctx s w md hmd, Join_empty_sep, Join_empty_sep]
    split_ifs <;> simp [fmt.Errorf, Sprintf_unknown_user, Sprintf_bad_password]
  refine ⟨?_, hform, ?_, ?_⟩
  · rw [hform]
    split_ifs with h1 h2
    · simp [h1]
    · simp [h2]
    · simp only [true_iff]
      exact ⟨not_not.mp h1, not_not.mp h2⟩
  · rw [authenticateClient_md (incomingCall [("login", ["jo", "hn"]), ("password", ["d", "oe"])])
      s w ⟨[("login", ["jo", "hn"]), ("password", ["d", "oe"])]⟩ rfl]
    rw [if_neg (by decide), if_neg (by decide)]
  · rw [authenticateClient_md (incomingCall [("login", ["john", "john"]), ("password", ["doe"])])
      s w ⟨[("login", ["john", "john"]), ("password", ["doe"])]⟩ rfl]
    rw [if_pos (by decide)]
    simp only [fmt.Errorf, Sprintf_unknown_user]
    decide

/-- Witness of C10: the login split over the values "jo" and "hn" and the
password over "d" and "oe". -/
theorem authenticateClient_concatenates_witness :
    metadata.FromIncomingContext
        (incomingCall [("login", ["jo", "hn"]), ("password", ["d", "oe"])]) =
        (⟨[("login", ["jo", "hn"]), ("password", ["d", "oe"])]⟩, true) ∧
    concatAll (MD.index ⟨[("login", ["jo", "hn"]), ("password", ["d", "oe"])]⟩ "login") = "john" ∧
    concatAll (MD.index ⟨[("login", ["jo", "hn"]), ("password", ["d", "oe"])]⟩ "password") =
        "doe" ∧
    (authenticateClient (incomingCall [("login", ["jo", "hn"]), ("password", ["d", "oe"])]) none
        (⟨[], ()⟩ : World Unit)).1 = ("42", none) :=
  ⟨rfl, by decide, by decide,
    (authenticateClient_concatenates
      (incomingCall [("login", ["jo", "hn"]), ("password", ["d", "oe"])]) none ⟨[], ()⟩
      ⟨[("login", ["jo", "hn"]), ("password", ["d", "oe"])]⟩ rfl).1.mpr ⟨by decide, by decide⟩⟩

/-! ## The interceptor -/

/-- C1: for every context, request and handler, on a call whose server is of type
`*api.Server` (the call reaches authentication): if `authenticateClient` fails on
the context, `unaryInterceptor` does not invoke the handler (it returns normally
with the world unchanged, and returns the same with a handler that panics when
invoked) and returns a nil response together with exactly the error that
`authenticateClient` returned.  Whatever the call info is, the handler is not
invoked and the response is nil on such a context. -/
theorem unaryInterceptor_auth_failure {σ : Type} (ctx : Context) (req : Any)
    (info : UnaryServerInfo) (handler : UnaryHandler σ) (w w1 : World σ) (p : Option Server)
    (clientID : String) (e : Error)
    (hserver : info.Server = Any.serverPtr p)
    (hfail : authenticateClient ctx p w = ((clientID, some e), w1)) :
    unaryInterceptor ctx req (some info) handler w = Except.ok ((Any.nil, some e), w) ∧
    unaryInterceptor ctx req (some info) panickingHandler w =
      Except.ok ((Any.nil, some e), w) ∧
    ∀ other : UnaryServerInfo,
      (∃ e2 : Error,
        unaryInterceptor ctx req (some other) handler w = Except.ok ((Any.nil, some e2), w)) ∧
      unaryInterceptor ctx req (some other) panickingHandler w =
        unaryInterceptor ctx req (some other) handler w := by
  obtain ⟨_, hw⟩ := authenticateClient_failure_world ctx p w w1 clientID e hfail
  subst hw
  have hcall : ∀ (h : UnaryHandler σ) (i : UnaryServerInfo) (q : Option Server),
      i.Server = Any.serverPtr q →
      unaryInterceptor ctx req (some i) h w1 = Except.ok ((Any.nil, some e), w1) := by
    intro h i q hq
    simp only [unaryInterceptor, hq, authenticateClient_server_irrelevant ctx q p, hfail]
  refine ⟨hcall handler info p hserver, hcall panickingHandler info p hserver, ?_⟩
  intro other
  cases hs : other.Server with
  | serverPtr q =>
    exact ⟨⟨e, hcall handler other q hs⟩,
      by rw [hcall handler other q hs, hcall panickingHandler other q hs]⟩
  | nil =>
    exact ⟨⟨fmt.Errorf "unable to cast server" [], by simp only [unaryInterceptor, hs]⟩,
      by simp only [unaryInterceptor, hs]⟩
  | str v =>
    exact ⟨⟨fmt.Errorf "unable to cast server" [], by simp only [unaryInterceptor, hs]⟩,
      by simp only [unaryInterceptor, hs]⟩
  | md v =>
    exact ⟨⟨fmt.Errorf "unable to cast server" [], by simp only [unaryInterceptor, hs]⟩,
      by simp only [unaryInterceptor, hs]⟩
  | pingMessage v =>
    exact ⟨⟨fmt.Errorf "unable to cast server" [], by simp only [unaryInterceptor, hs]⟩,
      by simp only [unaryInterceptor, hs]⟩
  | other t v =>
    exact ⟨⟨fmt.Errorf "unable to cast server" [], by simp only [unaryInterceptor, hs]⟩,
      by simp only [unaryInterceptor, hs]⟩

/-- Witness of C1: a call of the Ping service with the wrong password; the
counting handler is still at zero afterwards. -/
theorem unaryInterceptor_auth_failure_witness :
    (⟨Any.serverPtr (some ⟨⟩), "/api.Ping/SayHello"⟩ : UnaryServerInfo).Server =
        Any.serverPtr (some ⟨⟩) ∧
    authenticateClient (incomingCall [("login", ["john"]), ("password", ["wrong"])]) (some ⟨⟩)
        (⟨[], 0⟩ : World Nat) = (("", some ⟨"bad password wrong"⟩), ⟨[], 0⟩) ∧
    unaryInterceptor (incomingCall [("login", ["john"]), ("password", ["wrong"])])
        (Any.pingMessage (some ⟨"foo"⟩)) (some ⟨Any.serverPtr (some ⟨⟩), "/api.Ping/SayHello"⟩)
        countingHandler ⟨[], 0⟩ =
      Except.ok ((Any.nil, some ⟨"bad password wrong"⟩), ⟨[], 0⟩) :=
  ⟨rfl, by decide,
    (unaryInterceptor_auth_failure (incomingCall [("login", ["john"]), ("password", ["wrong"])])
      (Any.pingMessage (some ⟨"foo"⟩)) ⟨Any.serverPtr (some ⟨⟩), "/api.Ping/SayHello"⟩
      countingHandler ⟨[], 0⟩ ⟨[], 0⟩ (some ⟨⟩) "" ⟨"bad password wrong"⟩ rfl (by decide)).1⟩

/-- C2: for every context, request and handler, when the call's server is of
type `*api.Server` and `authenticateClient` succeeds with identity `clientID`,
the outcome of `unaryInterceptor` is the outcome of one invocation of the handler
(its response, error and effects, unmodified), made after authentication, with
the original request and with the context derived from the input context by
binding `clientIDKey` to `clientID`; every other key, and the incoming metadata,
read the same on the derived context as on the input context. -/
theorem unaryInterceptor_auth_success {σ : Type} (ctx : Context) (req : Any)
    (info : UnaryServerInfo) (handler : UnaryHandler σ) (w w1 : World σ) (p : Option Server)
    (clientID : String)
    (hserver : info.Server = Any.serverPtr p)
    (hauth : authenticateClient ctx p w = ((clientID, none), w1)) :
    unaryInterceptor ctx req (some info) handler w =
      handler (context.WithValue ctx clientIDKey (Any.str clientID)) req w1 ∧
    (context.WithValue ctx clientIDKey (Any.str clientID)).Value clientIDKey = Any.str clientID ∧
    (∀ k : Key, k ≠ clientIDKey →
      (context.WithValue ctx clientIDKey (Any.str clientID)).Value k = ctx.Value k) ∧
    metadata.FromIncomingContext (context.WithValue ctx clientIDKey (Any.str clientID)) =
      metadata.FromIncomingContext ctx := by
  refine ⟨?_, ?_, ?_, ?_⟩
  · simp only [unaryInterceptor, hserver, hauth]
  · simp [context.WithValue, Context.Value]
  · intro k hk
    simp [context.WithValue, Context.Value, hk]
  · have hkey : Key.mdIncomingKey ≠ clientIDKey := by decide
    simp [metadata.FromIncomingContext, context.WithValue, Context.Value, hkey]

/-- Witness of C2: the call of the client of `client/main.go`; the counting
handler has run once, after the audit line was logged. -/
theorem unaryInterceptor_auth_success_witness :
    (⟨Any.serverPtr (some ⟨⟩), "/api.Ping/SayHello"⟩ : UnaryServerInfo).Server =
        Any.serverPtr (some ⟨⟩) ∧
    authenticateClient (clientCall ⟨"john", "doe"⟩) (some ⟨⟩) (⟨[], 0⟩ : World Nat) =
        (("42", none), ⟨["authenticated client: john"], 0⟩) ∧
    unaryInterceptor (clientCall ⟨"john", "doe"⟩) (Any.pingMessage (some ⟨"foo"⟩))
        (some ⟨Any.serverPtr (some ⟨⟩), "/api.Ping/SayHello"⟩) countingHandler ⟨[], 0⟩ =
      Except.ok ((Any.nil, none), ⟨["authenticated client: john"], 1⟩) :=
  ⟨rfl, by decide,
    (unaryInterceptor_auth_success (clientCall ⟨"john", "doe"⟩) (Any.pingMessage (some ⟨"foo"⟩))
      ⟨Any.serverPtr (some ⟨⟩), "/api.Ping/SayHello"⟩ countingHandler ⟨[], 0⟩
      ⟨["authenticated client: john"], 0⟩ (some ⟨⟩) "42" rfl (by decide)).1.trans rfl⟩

end GrpcAuth
